import Mathlib

/-!
# Verification of the Character Progression & Skill-Tree Allocation Engine

A shallow embedding of the gamification core of the `lifeops-ios` stats
service (`services/stats/app/services/{progression,activity,tree_engine}.py`
and `character.py`), together with theorems settling the frozen claims about
its specification.

Modelling conventions:
* Python ints are `Nat`/`Int`; Python floats that only ever hold exact
  decimal/rational values (multipliers, effect values) are `ℚ`, and
  `math.pow` with the rational exponents 1.8 = 9/5 and 1.5 = 3/2 is modelled
  as exact real exponentiation, so `int(100 * (L-1)**1.8)` is the integer
  5th root of `10^10 * (L-1)^9`.
* Python `int(...)` truncates toward zero; on non-negative rationals this is
  the floor.
* The SQLAlchemy store is a record of lists (nodes, edges, one character's
  row, its stat rows, its allocation rows); ORM in-place mutation becomes
  explicit state passing.
-/

/-! ## Integer roots

`inatRoot e n` is the largest `k` with `k ^ e ≤ n`, computed by a fuelled
binary search (the fuel is a bound on the width of the search interval, so
`n + 2` always suffices).  This is the exact-arithmetic counterpart of the
real `e`-th root used to model `math.pow` with rational exponents. -/

def rootAux (e n : Nat) : Nat → Nat → Nat → Nat
  | 0, lo, _ => lo
  | fuel+1, lo, hi =>
    if hi ≤ lo + 1 then lo
    else
      let m := (lo + hi) / 2
      if m ^ e ≤ n then rootAux e n fuel m hi else rootAux e n fuel lo m

def inatRoot (e n : Nat) : Nat := rootAux e n (n + 2) 0 (n + 2)

theorem rootAux_spec (e n : Nat) :
    ∀ fuel lo hi, lo ^ e ≤ n → n < hi ^ e → hi ≤ lo + fuel + 1 →
      (rootAux e n fuel lo hi) ^ e ≤ n ∧ n < (rootAux e n fuel lo hi + 1) ^ e := by
  intro fuel
  induction fuel with
  | zero =>
    intro lo hi hlo hhi hw
    have hlt : lo < hi := by
      by_contra h
      exact absurd (Nat.lt_of_le_of_lt hlo hhi)
        (not_lt.mpr (Nat.pow_le_pow_left (le_of_not_lt h) e))
    have : hi = lo + 1 := by omega
    simpa [rootAux, this] using ⟨hlo, this ▸ hhi⟩
  | succ fuel ih =>
    intro lo hi hlo hhi hw
    have hlt : lo < hi := by
      by_contra h
      exact absurd (Nat.lt_of_le_of_lt hlo hhi)
        (not_lt.mpr (Nat.pow_le_pow_left (le_of_not_lt h) e))
    by_cases hnarrow : hi ≤ lo + 1
    · have : hi = lo + 1 := by omega
      simpa [rootAux, hnarrow] using ⟨hlo, this ▸ hhi⟩
    · have hm1 : lo + 1 ≤ (lo + hi) / 2 := by omega
      have hm2 : (lo + hi) / 2 + 1 ≤ hi := by omega
      by_cases hmid : ((lo + hi) / 2) ^ e ≤ n
      · have := ih ((lo + hi) / 2) hi hmid hhi (by omega)
        simpa [rootAux, hnarrow, hmid] using this
      · have := ih lo ((lo + hi) / 2) hlo (lt_of_not_le hmid) (by omega)
        simpa [rootAux, hnarrow, hmid] using this

theorem inatRoot_spec (e n : Nat) (he : 1 ≤ e) :
    (inatRoot e n) ^ e ≤ n ∧ n < (inatRoot e n + 1) ^ e := by
  have h0 : (0 : Nat) ^ e ≤ n := by
    rw [Nat.zero_pow (by omega)]; exact Nat.zero_le n
  have h1 : n < (n + 2) ^ e := by
    calc n < n + 2 := by omega
    _ = (n + 2) ^ 1 := (pow_one _).symm
    _ ≤ (n + 2) ^ e := Nat.pow_le_pow_right (by omega) he
  exact rootAux_spec e n (n + 2) 0 (n + 2) h0 h1 (by omega)

theorem le_inatRoot_iff (e n k : Nat) (he : 1 ≤ e) :
    k ≤ inatRoot e n ↔ k ^ e ≤ n := by
  obtain ⟨hlow, hhigh⟩ := inatRoot_spec e n he
  constructor
  · intro h
    exact le_trans (Nat.pow_le_pow_left h e) hlow
  · intro h
    have : k ^ e < (inatRoot e n + 1) ^ e := Nat.lt_of_le_of_lt h hhigh
    have := (Nat.pow_lt_pow_iff_left (by omega : e ≠ 0)).mp this
    omega

theorem inatRoot_mono (e : Nat) (he : 1 ≤ e) {a b : Nat} (h : a ≤ b) :
    inatRoot e a ≤ inatRoot e b := by
  rw [le_inatRoot_iff e b _ he]
  exact le_trans (inatRoot_spec e a he).1 h

/-! ## Progression curves (`progression.py`)

`xp_for_level` embeds `ProgressionService.xp_for_level`:
`0 if level <= 1 else int(100 * math.pow(level - 1, 1.8))`, with
`100 * (L-1)^(9/5) = (10^10 * (L-1)^9)^(1/5)`.

`level_from_xp` embeds `ProgressionService.level_from_xp`: a closed-form
estimate `int(math.pow(xp / 100, 1 / 1.8) + 1)` (the floor of
`(xp^5 / 10^10)^(1/9)` plus one) followed by an upward linear scan
`while xp_for_level(level + 1) <= xp: level += 1`, capped at 100.  The scan
is modelled with fuel `xp + 2`, which is proved sufficient. -/

def xp_for_level (level : Nat) : Nat :=
  if level ≤ 1 then 0 else inatRoot 5 (10000000000 * (level - 1) ^ 9)

def levelScanAux (f : Nat → Nat) (xp : Nat) : Nat → Nat → Nat
  | 0, level => level
  | fuel+1, level =>
    if f (level + 1) ≤ xp then levelScanAux f xp fuel (level + 1) else level

def level_from_xp (xp : Nat) : Nat :=
  if xp = 0 then 1
  else
    let est := inatRoot 9 (xp ^ 5 / 10000000000) + 1
    min (levelScanAux xp_for_level xp (xp + 2) est) 100

/-- `ProgressionService.stat_xp_for_level`:
`0 if level <= 10 else int(50 * math.pow(level - 10, 1.5))`, with
`50 * (L-10)^(3/2) = (2500 * (L-10)^3)^(1/2)`. -/
def stat_xp_for_level (level : Nat) : Nat :=
  if level ≤ 10 then 0 else inatRoot 2 (2500 * (level - 10) ^ 3)

/-- `ProgressionService.stat_level_from_xp`: estimate
`int(math.pow(xp / 50, 1 / 1.5) + 10)` then the same upward scan, capped
at 100. -/
def stat_level_from_xp (xp : Nat) : Nat :=
  if xp = 0 then 10
  else
    let est := inatRoot 3 (xp ^ 2 / 2500) + 10
    min (levelScanAux stat_xp_for_level xp (xp + 2) est) 100

/-- `ProgressionService.stat_points_for_level`. -/
def stat_points_for_level (level : Nat) : Nat :=
  if level % 10 = 0 then 3
  else if level % 5 = 0 then 2
  else 1

/-- Python `range(a, b)` as a list. -/
def pyrange (a b : Nat) : List Nat := List.range' a (b - a)

/-- `ProgressionService.calculate_level_ups`: the stat-point accumulator loop
`for level in range(old_level + 1, new_level + 1)` is a left fold. -/
def calculate_level_ups (old_xp new_xp : Nat) : Nat × Nat × Nat :=
  let old_level := level_from_xp old_xp
  let new_level := level_from_xp new_xp
  let stat_points :=
    (pyrange (old_level + 1) (new_level + 1)).foldl
      (fun acc level => acc + stat_points_for_level level) 0
  (old_level, new_level, stat_points)

/-- `ProgressionService.calculate_stat_level_ups`. -/
def calculate_stat_level_ups (old_xp new_xp : Nat) : Nat × Nat × Bool :=
  let old_level := stat_level_from_xp old_xp
  let new_level := stat_level_from_xp new_xp
  (old_level, new_level, decide (old_level < new_level))

/-! ### Scan correctness -/

theorem levelScanAux_spec (f : Nat → Nat) (xp : Nat) :
    ∀ fuel level, f level ≤ xp →
      (∀ L, level + fuel ≤ L → f L ≤ xp → False) →
      f (levelScanAux f xp fuel level) ≤ xp ∧
        ¬ f (levelScanAux f xp fuel level + 1) ≤ xp := by
  intro fuel
  induction fuel with
  | zero =>
    intro level hstart hbound
    exact absurd hstart (fun h => hbound level (by omega) h)
  | succ fuel ih =>
    intro level hstart hbound
    by_cases hc : f (level + 1) ≤ xp
    · have := ih (level + 1) hc (fun L hL h => hbound L (by omega) h)
      simpa [levelScanAux, hc] using this
    · simpa [levelScanAux, hc] using (⟨hstart, hc⟩ : f level ≤ xp ∧ ¬ f (level + 1) ≤ xp)

theorem xp_for_level_mono {a b : Nat} (h : a ≤ b) :
    xp_for_level a ≤ xp_for_level b := by
  unfold xp_for_level
  by_cases ha : a ≤ 1
  · simp [ha]
  · have hb : ¬ b ≤ 1 := by omega
    simp only [ha, hb, if_false]
    exact inatRoot_mono 5 (by omega)
      (Nat.mul_le_mul_left _ (Nat.pow_le_pow_left (by omega) 9))

theorem xp_for_level_lower (L : Nat) (hL : 2 ≤ L) :
    100 * (L - 1) ≤ xp_for_level L := by
  unfold xp_for_level
  have : ¬ L ≤ 1 := by omega
  simp only [this, if_false]
  rw [le_inatRoot_iff 5 _ _ (by omega)]
  have h1 : 1 ≤ L - 1 := by omega
  calc (100 * (L - 1)) ^ 5 = 10000000000 * (L - 1) ^ 5 := by ring
  _ ≤ 10000000000 * (L - 1) ^ 9 :=
      Nat.mul_le_mul_left _ (Nat.pow_le_pow_right h1 (by omega))

theorem stat_xp_for_level_lower (L : Nat) (hL : 11 ≤ L) :
    50 * (L - 10) ≤ stat_xp_for_level L := by
  unfold stat_xp_for_level
  have : ¬ L ≤ 10 := by omega
  simp only [this, if_false]
  rw [le_inatRoot_iff 2 _ _ (by omega)]
  have h1 : 1 ≤ L - 10 := by omega
  calc (50 * (L - 10)) ^ 2 = 2500 * (L - 10) ^ 2 := by ring
  _ ≤ 2500 * (L - 10) ^ 3 :=
      Nat.mul_le_mul_left _ (Nat.pow_le_pow_right h1 (by omega))

/-- The estimate plus scan in `level_from_xp` lands on the largest level
whose threshold does not exceed `xp`, before the cap is applied. -/
theorem level_from_xp_uncapped (xp : Nat) (hxp : 1 ≤ xp) :
    xp_for_level (levelScanAux xp_for_level xp (xp + 2)
        (inatRoot 9 (xp ^ 5 / 10000000000) + 1)) ≤ xp ∧
    ¬ xp_for_level (levelScanAux xp_for_level xp (xp + 2)
        (inatRoot 9 (xp ^ 5 / 10000000000) + 1) + 1) ≤ xp := by
  set k := inatRoot 9 (xp ^ 5 / 10000000000) with hk
  apply levelScanAux_spec
  · -- the estimate's threshold is below xp
    unfold xp_for_level
    by_cases h0 : k + 1 ≤ 1
    · simp [h0]
    · simp only [h0, if_false]
      have hk9 : k ^ 9 ≤ xp ^ 5 / 10000000000 := (inatRoot_spec 9 _ (by omega)).1
      have hk9' : 10000000000 * k ^ 9 ≤ xp ^ 5 := by
        have := Nat.div_mul_le_self (xp ^ 5) 10000000000
        calc 10000000000 * k ^ 9 ≤ 10000000000 * (xp ^ 5 / 10000000000) :=
              Nat.mul_le_mul_left _ hk9
        _ ≤ xp ^ 5 := by
              rw [Nat.mul_comm]; exact Nat.div_mul_le_self _ _
      have hroot : inatRoot 5 (10000000000 * (k + 1 - 1) ^ 9) ≤ xp := by
        rw [show k + 1 - 1 = k from rfl]
        have h1 := (inatRoot_spec 5 (10000000000 * k ^ 9) (by omega)).1
        have : (inatRoot 5 (10000000000 * k ^ 9)) ^ 5 ≤ xp ^ 5 :=
          le_trans h1 hk9'
        exact (Nat.pow_le_pow_iff_left (by omega : (5:Nat) ≠ 0)).mp this
      exact hroot
  · -- beyond the fuel window every threshold exceeds xp
    intro L hL hf
    have hL2 : 2 ≤ L := by omega
    have := xp_for_level_lower L hL2
    have : 100 * (L - 1) ≤ xp := le_trans this hf
    omega

/-- The estimate plus scan in `stat_level_from_xp` lands on the largest stat
level whose threshold does not exceed `xp`, before the cap is applied. -/
theorem stat_level_from_xp_uncapped (xp : Nat) (hxp : 1 ≤ xp) :
    stat_xp_for_level (levelScanAux stat_xp_for_level xp (xp + 2)
        (inatRoot 3 (xp ^ 2 / 2500) + 10)) ≤ xp ∧
    ¬ stat_xp_for_level (levelScanAux stat_xp_for_level xp (xp + 2)
        (inatRoot 3 (xp ^ 2 / 2500) + 10) + 1) ≤ xp := by
  set k := inatRoot 3 (xp ^ 2 / 2500) with hk
  apply levelScanAux_spec
  · unfold stat_xp_for_level
    by_cases h0 : k + 10 ≤ 10
    · simp [h0]
    · simp only [h0, if_false]
      have hk3 : k ^ 3 ≤ xp ^ 2 / 2500 := (inatRoot_spec 3 _ (by omega)).1
      have hk3' : 2500 * k ^ 3 ≤ xp ^ 2 := by
        calc 2500 * k ^ 3 ≤ 2500 * (xp ^ 2 / 2500) := Nat.mul_le_mul_left _ hk3
        _ ≤ xp ^ 2 := by rw [Nat.mul_comm]; exact Nat.div_mul_le_self _ _
      have hroot : inatRoot 2 (2500 * (k + 10 - 10) ^ 3) ≤ xp := by
        rw [show k + 10 - 10 = k from rfl]
        have h1 := (inatRoot_spec 2 (2500 * k ^ 3) (by omega)).1
        have : (inatRoot 2 (2500 * k ^ 3)) ^ 2 ≤ xp ^ 2 := le_trans h1 hk3'
        exact (Nat.pow_le_pow_iff_left (by omega : (2:Nat) ≠ 0)).mp this
      exact hroot
  · intro L hL hf
    have hL2 : 11 ≤ L := by omega
    have := stat_xp_for_level_lower L hL2
    have : 50 * (L - 10) ≤ xp := le_trans this hf
    omega

theorem stat_xp_for_level_mono {a b : Nat} (h : a ≤ b) :
    stat_xp_for_level a ≤ stat_xp_for_level b := by
  unfold stat_xp_for_level
  by_cases ha : a ≤ 10
  · simp [ha]
  · have hb : ¬ b ≤ 10 := by omega
    simp only [ha, hb, if_false]
    exact inatRoot_mono 2 (by omega)
      (Nat.mul_le_mul_left _ (Nat.pow_le_pow_left (by omega) 3))

/-! ### Claim C4: curve inverse consistency

The claim as stated quantifies over *every* XP value.  It fails at the level
cap: `level_from_xp` clamps its result to 100, so for
`x = xp_for_level 101 = 398107` we get `level_from_xp x = 100` and
`xp_for_level (level_from_xp x + 1) = 398107 ≤ x`, breaking the strict upper
bound (and likewise for the attribute curve at
`stat_xp_for_level 101 = 43404`).  Below the cap thresholds the claim holds. -/

/-- Claim C4, counterexample: at `x = 398107 = xp_for_level 101` the
character curve violates `x < xp_for_level (level_from_xp x + 1)` because
`level_from_xp` caps at 100; at `x = 43404 = stat_xp_for_level 101` the
attribute curve violates the analogous bound. -/
theorem C4_counterexample :
    xp_for_level 101 = 398107 ∧
    level_from_xp 398107 = 100 ∧
    ¬ 398107 < xp_for_level (level_from_xp 398107 + 1) ∧
    stat_xp_for_level 101 = 43404 ∧
    stat_level_from_xp 43404 = 100 ∧
    ¬ 43404 < stat_xp_for_level (stat_level_from_xp 43404 + 1) := by
  refine ⟨by decide, by decide, by decide, by decide, by decide, by decide⟩

/-- Claim C4, amended: for every XP value `x` *below the level-cap
threshold* of the respective curve (`x < xp_for_level 101` for the character
curve, `x < stat_xp_for_level 101` for the attribute curve),
`level_from_xp` / `stat_level_from_xp` return the largest level whose
threshold does not exceed `x`:
`xp_for_level (level_from_xp x) ≤ x < xp_for_level (level_from_xp x + 1)`,
and likewise for the attribute curve.  At or above those thresholds the
result is capped at 100 and the strict upper bound fails. -/
theorem C4_curve_inverse_below_cap (x : Nat) :
    (x < xp_for_level 101 →
      xp_for_level (level_from_xp x) ≤ x ∧
        x < xp_for_level (level_from_xp x + 1)) ∧
    (x < stat_xp_for_level 101 →
      stat_xp_for_level (stat_level_from_xp x) ≤ x ∧
        x < stat_xp_for_level (stat_level_from_xp x + 1)) := by
  constructor
  · intro hcap
    by_cases hx : x = 0
    · subst hx
      constructor
      · simp [level_from_xp, xp_for_level]
      · decide
    · have hx1 : 1 ≤ x := by omega
      obtain ⟨hlow, hhigh⟩ := level_from_xp_uncapped x hx1
      set R := levelScanAux xp_for_level x (x + 2)
        (inatRoot 9 (x ^ 5 / 10000000000) + 1) with hR
      have hR100 : R ≤ 100 := by
        by_contra h
        exact hcap.not_le (le_trans (xp_for_level_mono (by omega : 101 ≤ R)) hlow)
      have : level_from_xp x = R := by
        unfold level_from_xp
        simp only [hx, if_false, ← hR]
        omega
      rw [this]
      exact ⟨hlow, lt_of_not_le hhigh⟩
  · intro hcap
    by_cases hx : x = 0
    · subst hx
      constructor
      · simp [stat_level_from_xp, stat_xp_for_level]
      · decide
    · have hx1 : 1 ≤ x := by omega
      obtain ⟨hlow, hhigh⟩ := stat_level_from_xp_uncapped x hx1
      set R := levelScanAux stat_xp_for_level x (x + 2)
        (inatRoot 3 (x ^ 2 / 2500) + 10) with hR
      have hR100 : R ≤ 100 := by
        by_contra h
        exact hcap.not_le
          (le_trans (stat_xp_for_level_mono (by omega : 101 ≤ R)) hlow)
      have : stat_level_from_xp x = R := by
        unfold stat_level_from_xp
        simp only [hx, if_false, ← hR]
        omega
      rw [this]
      exact ⟨hlow, lt_of_not_le hhigh⟩

/-- Witness for `C4_curve_inverse_below_cap` at `x = 347` (the spec's own
example value: `level_from_xp 347 = 2`). -/
theorem C4_curve_inverse_below_cap_witness :
    (xp_for_level (level_from_xp 347) ≤ 347 ∧
      347 < xp_for_level (level_from_xp 347 + 1)) ∧
    (stat_xp_for_level (stat_level_from_xp 347) ≤ 347 ∧
      347 < stat_xp_for_level (stat_level_from_xp 347 + 1)) :=
  ⟨(C4_curve_inverse_below_cap 347).1 (by decide),
   (C4_curve_inverse_below_cap 347).2 (by decide)⟩

/-! ### Claim C6: `calculate_level_ups`

The general part of the claim (stat points are summed over every level from
`old_level + 1` to `new_level` inclusive) holds.  The concrete part is
wrong about the code: starting from XP 0 (level 1) and jumping to
`int(100 * 9 ** 1.8) = 5219` XP (the level-10 threshold) crosses levels
2..10 and yields `7*1 + 2 + 3 = 12` stat points — the milestone bonus 3 for
level 10 *plus* the rewards for levels 2..9 — not 3 alone. -/

theorem foldl_add_eq_sum (f : Nat → Nat) (l : List Nat) (n : Nat) :
    l.foldl (fun acc x => acc + f x) n = n + (l.map f).sum := by
  induction l generalizing n with
  | nil => simp
  | cons x xs ih => simp [ih, Nat.add_assoc]

theorem pyrange_map_sum (f : Nat → Nat) (a n : Nat) :
    ((List.range' a n).map f).sum = ∑ i in Finset.range n, f (a + i) := by
  induction n generalizing a with
  | zero => simp
  | succ n ih =>
    rw [List.range'_succ, List.map_cons, List.sum_cons, ih,
      Finset.sum_range_succ']
    have : ∀ i, f (a + 1 + i) = f (a + (i + 1)) := fun i => by ring_nf
    rw [Finset.sum_congr rfl fun i _ => this i]
    simp only [Nat.add_zero]
    omega

/-- Claim C6, counterexample: `calculate_level_ups(0, 100*9^1.8)` (i.e.
`calculate_level_ups 0 5219`, where `5219 = int(100*9**1.8) =
xp_for_level 10`) crosses from level 1 to level 10 but yields 12 stat
points, not the milestone bonus 3 alone. -/
theorem C6_counterexample :
    xp_for_level 10 = 5219 ∧
    calculate_level_ups 0 5219 = (1, 10, 12) ∧
    ¬ (calculate_level_ups 0 5219).2.2 = 3 := by
  refine ⟨by decide, by decide, by decide⟩

/-- Claim C6, amended: `calculate_level_ups(0, 100*9^1.8)` returns old level
1 and new level exactly 10, and yields 12 stat points — the sum of
`stat_points_for_level` over the crossed levels 2..10 (seven regular levels
at 1 point, level 5 at 2 points, level 10 at 3 points) — not the level-10
milestone bonus alone.  In general `calculate_level_ups` returns
`(old_level, new_level, total_stat_points)` where `total_stat_points` is the
sum of `stat_points_for_level` over every level from `old_level + 1` to
`new_level` inclusive. -/
theorem C6_calculate_level_ups :
    calculate_level_ups 0 5219 =
      (1, 10, ∑ L in Finset.Icc 2 10, stat_points_for_level L) ∧
    ∀ old_xp new_xp,
      calculate_level_ups old_xp new_xp =
        (level_from_xp old_xp, level_from_xp new_xp,
          ∑ L in Finset.Icc (level_from_xp old_xp + 1) (level_from_xp new_xp),
            stat_points_for_level L) := by
  have hgen : ∀ old_xp new_xp,
      calculate_level_ups old_xp new_xp =
        (level_from_xp old_xp, level_from_xp new_xp,
          ∑ L in Finset.Icc (level_from_xp old_xp + 1) (level_from_xp new_xp),
            stat_points_for_level L) := by
    intro old_xp new_xp
    simp only [calculate_level_ups, pyrange]
    rw [foldl_add_eq_sum, Nat.zero_add, pyrange_map_sum,
      ← Nat.Ico_succ_right, Finset.sum_Ico_eq_sum_range]
  refine ⟨?_, hgen⟩
  rw [hgen 0 5219]
  have h0 : level_from_xp 0 = 1 := by decide
  have h1 : level_from_xp 5219 = 10 := by decide
  rw [h0, h1]

/-! ## Activity XP resolver (`activity.py`)

`ActivityService._calculate_xp`: its first statement reads
`settings.ACTIVITY_XP_MAPPING`.  `ACTIVITY_XP_MAPPING` is a *module-level
constant* of `core/config.py`, defined after the pydantic `Settings`
instance, and is not a declared field of `Settings` (whose
`Config.extra = "ignore"` admits no extra attributes), so pydantic raises
`AttributeError` on every call — the table lookup, the `{"LCK": 5}`
fallback and the modifier pipeline below it are unreachable.  The access
is modelled as an `Except`, and the remainder of the function body as
`calculate_xp_body`, parameterized over the mapping value the access was
meant to produce.  In the body, the contextual data map supplies at most a
global multiplier, a duration, an intensity tier and a quality multiplier
(Python `dict.get` with defaults becomes `Option.getD`); multipliers and
durations are exact rationals; Python `int(...)` truncates toward zero. -/

/-- Python `int(...)` on a rational: truncation toward zero
(`Int.div` is T-division, and `q.den` is positive, so this is exactly
`math.trunc`; the floor for non-negative `q`). -/
def pytrunc (q : ℚ) : ℤ := Int.tdiv q.num (q.den : ℤ)

/-- First-match lookup in an association list (Python `dict.get` for the
static configuration dicts, whose keys are distinct). -/
def alistGet {β : Type} (l : List (String × β)) (k : String) : Option β :=
  (l.find? (fun p => p.1 == k)).map (·.2)

/-- The contextual `activity_data` map: exactly the keys
`ActivityService._calculate_xp` reads, each optional. -/
structure ActivityData where
  multiplier : Option ℚ
  duration_minutes : Option ℚ
  intensity : Option String
  quality : Option ℚ

/-- `settings.ACTIVITY_XP_MAPPING` from `core/config.py`, verbatim. -/
def ACTIVITY_XP_MAPPING : List (String × List (String × ℤ)) :=
  [("gym_session", [("STR", 75), ("STA", 30)]),
   ("strength_training", [("STR", 100), ("STA", 20)]),
   ("cardio_session", [("STA", 80), ("STR", 20)]),
   ("sports_activity", [("STR", 50), ("STA", 50), ("CHA", 20)]),
   ("yoga_session", [("WIS", 40), ("STA", 30), ("STR", 20)]),
   ("sleep_tracked", [("STA", 30)]),
   ("quality_sleep", [("STA", 50), ("WIS", 20)]),
   ("excellent_sleep", [("STA", 75), ("WIS", 30), ("LCK", 10)]),
   ("early_rise", [("STA", 25), ("WIS", 25)]),
   ("learning_session", [("INT", 60), ("WIS", 20)]),
   ("reading_session", [("INT", 40), ("WIS", 30)]),
   ("meditation", [("WIS", 50), ("STA", 20)]),
   ("problem_solved", [("INT", 80), ("WIS", 40)]),
   ("skill_practiced", [("INT", 50)]),
   ("work_completed", [("INT", 30)]),
   ("project_milestone", [("INT", 60), ("WIS", 30)]),
   ("productive_day", [("INT", 40), ("STA", 20)]),
   ("social_event", [("CHA", 60), ("LCK", 20)]),
   ("networking", [("CHA", 50), ("INT", 20)]),
   ("helped_someone", [("CHA", 40), ("WIS", 30)]),
   ("public_speaking", [("CHA", 80), ("INT", 20)]),
   ("habit_completed", [("WIS", 20)]),
   ("streak_maintained", [("WIS", 40), ("STA", 20)]),
   ("perfect_day",
     [("STR", 20), ("INT", 20), ("WIS", 20), ("STA", 20), ("CHA", 20),
      ("LCK", 20)]),
   ("achievement_bronze", [("LCK", 30)]),
   ("achievement_silver", [("LCK", 50)]),
   ("achievement_gold", [("LCK", 80)]),
   ("achievement_platinum", [("LCK", 120)]),
   ("achievement_diamond", [("LCK", 200)]),
   ("life_score_70", [("WIS", 10)]),
   ("life_score_80", [("WIS", 20), ("STA", 10)]),
   ("life_score_90",
     [("STR", 15), ("INT", 15), ("WIS", 15), ("STA", 15), ("CHA", 15),
      ("LCK", 15)]),
   ("lucky_event", [("LCK", 50)]),
   ("new_opportunity", [("LCK", 40), ("CHA", 20)])]

/-- The `intensity_mults` dict inside `_calculate_xp`. -/
def intensity_mults : List (String × ℚ) :=
  [("low", 7/10), ("normal", 1), ("high", 13/10), ("extreme", 3/2)]

/-- The declared fields of the stats service's pydantic `Settings` class
(`core/config.py`).  With `Config.extra = "ignore"` the `settings`
instance carries no attributes beyond these. -/
def settingsFields : List String :=
  ["app_name", "environment", "debug", "database_url", "mqtt_broker",
   "mqtt_port", "mqtt_topic_activities", "mqtt_topic_events",
   "character_level_base", "character_level_multiplier", "stat_level_base",
   "stat_level_multiplier", "starting_stat_value", "starting_stat_points",
   "starting_respec_tokens", "core_stats"]

/-- The attribute access `settings.ACTIVITY_XP_MAPPING` in the first
statement of `_calculate_xp`.  The name is not among the declared
`Settings` fields — it is a module-level constant of `core/config.py` —
so the access raises `AttributeError`; the `ok` branch carries the table
the code intends and is never reached. -/
def settings_ACTIVITY_XP_MAPPING :
    Except String (List (String × List (String × ℤ))) :=
  if settingsFields.contains "ACTIVITY_XP_MAPPING" then
    Except.ok ACTIVITY_XP_MAPPING
  else
    Except.error
      "AttributeError: 'Settings' object has no attribute 'ACTIVITY_XP_MAPPING'"

/-- The body of `_calculate_xp` after the `settings.ACTIVITY_XP_MAPPING`
access, parameterized over the mapping value that access was meant to
produce.  Each modifier stage maps `xp[stat] = int(xp[stat] * m)` over
every entry of the grant map; the duration stage is skipped when
`duration <= 0`. -/
def calculate_xp_body (mapping : List (String × List (String × ℤ)))
    (activity_type : String) (d : ActivityData) : List (String × ℤ) :=
  let base_xp := (alistGet mapping activity_type).getD []
  if base_xp.isEmpty then [("LCK", 5)]
  else
    let multiplier := d.multiplier.getD 1
    let duration := d.duration_minutes.getD 0
    let intensity := d.intensity.getD "normal"
    let quality := d.quality.getD 1
    let xp1 :=
      if 0 < duration then
        let duration_mult := min (duration / 60) 2
        base_xp.map (fun p => (p.1, pytrunc ((p.2 : ℚ) * duration_mult)))
      else base_xp
    let int_mult := (alistGet intensity_mults intensity).getD 1
    let xp2 := xp1.map (fun p => (p.1, pytrunc ((p.2 : ℚ) * int_mult)))
    let xp3 := xp2.map (fun p => (p.1, pytrunc ((p.2 : ℚ) * quality)))
    xp3.map (fun p => (p.1, pytrunc ((p.2 : ℚ) * multiplier)))

/-- `ActivityService._calculate_xp` as the code executes: the
`settings.ACTIVITY_XP_MAPPING` access raises before the body can run, so
the result is an `AttributeError` on every input. -/
def calculate_xp (activity_type : String) (d : ActivityData) :
    Except String (List (String × ℤ)) :=
  match settings_ACTIVITY_XP_MAPPING with
  | Except.error e => Except.error e
  | Except.ok mapping => Except.ok (calculate_xp_body mapping activity_type d)

/-! ### Claim C5: modifier pipeline for known activity types -/

/-- The claim's duration scaling: `duration/60`, capped at 2×. -/
def durationMult (duration : ℚ) : ℚ := min (duration / 60) 2

/-- The claim's intensity-tier table: low 0.7, normal 1.0, high 1.3,
extreme 1.5, anything else 1.0. -/
def intensityTierMult (intensity : String) : ℚ :=
  if intensity = "low" then 7/10
  else if intensity = "normal" then 1
  else if intensity = "high" then 13/10
  else if intensity = "extreme" then 3/2
  else 1

/-- The claim's staged pipeline: starting from the base grant, apply the
duration multiplier, then the intensity multiplier, then the quality
multiplier, then the global multiplier, truncating to an integer after each
stage, independently per attribute. -/
def claimStagedXP (base : List (String × ℤ)) (duration : ℚ)
    (intensity : String) (quality multiplier : ℚ) : List (String × ℤ) :=
  base.map fun p =>
    (p.1,
      pytrunc ((pytrunc ((pytrunc ((pytrunc ((p.2 : ℚ) * durationMult duration)
        : ℚ) * intensityTierMult intensity) : ℚ) * quality) : ℚ) * multiplier))

theorem alistGet_intensity (s : String) :
    ((alistGet intensity_mults s).getD 1) = intensityTierMult s := by
  by_cases h1 : s = "low"
  · subst h1; rfl
  by_cases h2 : s = "normal"
  · subst h2; rfl
  by_cases h3 : s = "high"
  · subst h3; rfl
  by_cases h4 : s = "extreme"
  · subst h4; rfl
  have e1 : ("low" == s) = false := beq_eq_false_iff_ne.mpr (Ne.symm h1)
  have e2 : ("normal" == s) = false := beq_eq_false_iff_ne.mpr (Ne.symm h2)
  have e3 : ("high" == s) = false := beq_eq_false_iff_ne.mpr (Ne.symm h3)
  have e4 : ("extreme" == s) = false := beq_eq_false_iff_ne.mpr (Ne.symm h4)
  simp [alistGet, intensity_mults, intensityTierMult, List.find?, e1, e2, e3,
    e4, h1, h2, h3, h4]

/-- Claim C5 (code bug): the claim correctly describes the modifier
pipeline the resolver is written to apply, but the code never reaches it.
First conjunct: every call of `_calculate_xp` raises
`AttributeError: 'Settings' object has no attribute 'ACTIVITY_XP_MAPPING'`
at its first statement, whatever the activity type and contextual data.
Second conjunct: the (unreachable) remainder of the function, applied to
the module-level base grant table, is exactly the claim's staged pipeline
for every known activity type (non-empty base grant) with positive
duration: base grant, then duration scaling (`duration/60` capped at 2×,
the cap binding for long durations and the scaling linear below it), then
the intensity tier multiplier (low 0.7, normal 1.0, high 1.3, extreme 1.5,
unknown 1.0), then the quality multiplier, then the global multiplier,
truncating each attribute's value to an integer after each stage.  (When
`duration <= 0` the body skips the duration stage entirely rather than
scaling by 0.) -/
theorem C5_pipeline_unreachable :
    (∀ (activity_type : String) (d : ActivityData),
      calculate_xp activity_type d =
        Except.error
          "AttributeError: 'Settings' object has no attribute 'ACTIVITY_XP_MAPPING'") ∧
    (∀ (activity_type : String) (d : ActivityData)
        (base : List (String × ℤ)),
      alistGet ACTIVITY_XP_MAPPING activity_type = some base →
      base ≠ [] →
      0 < d.duration_minutes.getD 0 →
      calculate_xp_body ACTIVITY_XP_MAPPING activity_type d =
        claimStagedXP base (d.duration_minutes.getD 0)
          (d.intensity.getD "normal") (d.quality.getD 1)
          (d.multiplier.getD 1)) := by
  constructor
  · intro activity_type d
    rfl
  · intro activity_type d base hbase hne hdur
    unfold calculate_xp_body
    rw [hbase]
    have hne' : (base.isEmpty) = false := by
      cases base with
      | nil => exact absurd rfl hne
      | cons a l => rfl
    simp only [Option.getD_some, hne', Bool.false_eq_true, if_false, hdur,
      if_true, List.map_map]
    rw [alistGet_intensity]
    unfold claimStagedXP durationMult
    apply List.map_congr_left
    intro p _
    rfl

/-- Witness for `C5_pipeline_unreachable`: `skill_practiced` (base INT 50)
with duration 90, intensity "high", quality 1.2, multiplier 1 — the actual
call errors, while the unreachable body would yield
`int(int(int(int(50*1.5)*1.3)*1.2)*1) = 116`. -/
theorem C5_pipeline_unreachable_witness :
    calculate_xp "skill_practiced"
        ⟨some 1, some 90, some "high", some (6/5)⟩ =
      Except.error
        "AttributeError: 'Settings' object has no attribute 'ACTIVITY_XP_MAPPING'" ∧
    calculate_xp_body ACTIVITY_XP_MAPPING "skill_practiced"
        ⟨some 1, some 90, some "high", some (6/5)⟩ =
      claimStagedXP [("INT", 50)] 90 "high" (6/5) 1 ∧
    claimStagedXP [("INT", 50)] 90 "high" (6/5) 1 = [("INT", 116)] :=
  ⟨C5_pipeline_unreachable.1 "skill_practiced"
      ⟨some 1, some 90, some "high", some (6/5)⟩,
   C5_pipeline_unreachable.2 "skill_practiced"
      ⟨some 1, some 90, some "high", some (6/5)⟩
      [("INT", 50)] (by decide) (by decide) (by with_unfolding_all decide),
   by with_unfolding_all decide⟩

/-- Claim C8 (code bug): the claim correctly describes the intended
fallback — the (unreachable) body of `_calculate_xp` returns exactly the
non-empty flat grant `{"LCK": 5}` for every unknown activity type and
every contextual data map (second conjunct) — but "never raises" is false
of the code: every call of `_calculate_xp` raises
`AttributeError: 'Settings' object has no attribute 'ACTIVITY_XP_MAPPING'`
at its first statement, before the fallback can be returned (first
conjunct). -/
theorem C8_fallback_unreachable :
    (∀ (activity_type : String) (d : ActivityData),
      calculate_xp activity_type d =
        Except.error
          "AttributeError: 'Settings' object has no attribute 'ACTIVITY_XP_MAPPING'") ∧
    (∀ (activity_type : String) (d : ActivityData),
      alistGet ACTIVITY_XP_MAPPING activity_type = none →
      calculate_xp_body ACTIVITY_XP_MAPPING activity_type d = [("LCK", 5)] ∧
        calculate_xp_body ACTIVITY_XP_MAPPING activity_type d ≠ []) := by
  constructor
  · intro activity_type d
    rfl
  · intro activity_type d hunknown
    unfold calculate_xp_body
    rw [hunknown]
    exact ⟨rfl, by simp⟩

/-- Witness for `C8_fallback_unreachable` at the unknown type
`"interpretive_dance"`: the actual call errors; the unreachable body would
return the non-empty `{"LCK": 5}`. -/
theorem C8_fallback_unreachable_witness :
    calculate_xp "interpretive_dance" ⟨none, none, none, none⟩ =
      Except.error
        "AttributeError: 'Settings' object has no attribute 'ACTIVITY_XP_MAPPING'" ∧
    calculate_xp_body ACTIVITY_XP_MAPPING "interpretive_dance"
        ⟨none, none, none, none⟩ = [("LCK", 5)] ∧
    calculate_xp_body ACTIVITY_XP_MAPPING "interpretive_dance"
        ⟨none, none, none, none⟩ ≠ [] :=
  ⟨C8_fallback_unreachable.1 "interpretive_dance" ⟨none, none, none, none⟩,
   (C8_fallback_unreachable.2 "interpretive_dance" ⟨none, none, none, none⟩
      (by decide)).1,
   (C8_fallback_unreachable.2 "interpretive_dance" ⟨none, none, none, none⟩
      (by decide)).2⟩

/-! ## Formula evaluator (`progression.py` / `character.py`)

`ProgressionService.evaluate_formula` first checks the formula against the
allow-list regex `^[\s\d\.\+\-\*\/\(\)STRINWISACHLCK]+$` (whitespace,
digits, `. + - * / ( )`, and exactly the letters occurring in the six
attribute codes), then substitutes attribute values and hands the resulting
expression to Python `eval`.  The `eval` back end is abstracted as a
parameter `ev`; every theorem below quantifies over it, which also captures
that a rejected formula is never evaluated.
`CharacterService.calculate_derived_stats` wraps each formula in
`try/except`, defaulting the derived value to `0.0` on any failure. -/

/-- One character of the allow-list character class
`[\s\d\.\+\-\*\/\(\)STRINWISACHLCK]` (the letter part is the set of letters
of the class string `STRINWISACHLCK`).  `Char.isWhitespace` models `\s`
(ASCII whitespace; the divergence on exotic Unicode whitespace is
irrelevant to every claim, which concern rejected characters). -/
def safeChar (c : Char) : Bool :=
  c.isWhitespace || c.isDigit ||
    ['.', '+', '-', '*', '/', '(', ')'].contains c ||
    ['S', 'T', 'R', 'I', 'N', 'W', 'A', 'C', 'H', 'L', 'K'].contains c

/-- `re.match(r'^[...]+$', formula)`: non-empty and every character in the
class. -/
def safeFormula (formula : String) : Bool :=
  !formula.data.isEmpty && formula.data.all safeChar

/-- The substitution loop `for code, value in stats.items():
expr = expr.replace(code, str(value))`. -/
def substStats (formula : String) (stats : List (String × ℤ)) : String :=
  stats.foldl (fun e p => e.replace p.1 (toString p.2)) formula

/-- `ProgressionService.evaluate_formula`, parametric in the `eval` back end
`ev`: reject unsafe formulas with `ValueError("Invalid formula: ...")`, else
evaluate the substituted expression (the back end also covers the
`float(result)` conversion and the re-raise on evaluation failure). -/
def evaluate_formula (ev : String → Except String ℚ)
    (formula : String) (stats : List (String × ℤ)) : Except String ℚ :=
  if safeFormula formula then ev (substStats formula stats)
  else Except.error ("Invalid formula: " ++ formula)

/-- Python `round(x, 2)` (banker's rounding at the second decimal,
modelled on exact rationals). -/
def pyround2 (q : ℚ) : ℚ :=
  let s := q * 100
  let f : ℤ := ⌊s⌋
  let r : ℚ := s - f
  (if r < 1/2 then (f : ℚ)
   else if 1/2 < r then (f : ℚ) + 1
   else if f % 2 = 0 then (f : ℚ) else (f : ℚ) + 1) / 100

/-- The per-formula body of `CharacterService.calculate_derived_stats`:
`try: value = evaluate_formula(...); derived[code] = round(value, 2)
except Exception: derived[code] = 0.0`. -/
def calculate_derived_value (ev : String → Except String ℚ)
    (formula : String) (stats : List (String × ℤ)) : ℚ :=
  match evaluate_formula ev formula stats with
  | Except.ok v => pyround2 v
  | Except.error _ => 0

/-- `CharacterService.calculate_derived_stats` over a list of
`(code, formula)` derived-stat definitions. -/
def calculate_derived_stats (ev : String → Except String ℚ)
    (defs : List (String × String)) (stats : List (String × ℤ)) :
    List (String × ℚ) :=
  defs.map (fun d => (d.1, calculate_derived_value ev d.2 stats))

/-- Claim C7: a formula containing any character outside the allow-list —
in particular a semicolon, or any ASCII letter not occurring in the six
attribute codes — is rejected before evaluation (for *every* back end `ev`,
so the expression is never executed) and its derived value defaults to 0.0;
and every evaluation failure, of any kind, likewise yields 0.0 rather than
an error. -/
theorem C7_formula_rejection :
    (∀ (ev : String → Except String ℚ) (formula : String)
        (stats : List (String × ℤ)) (defs : List (String × String))
        (code : String),
      (∃ c ∈ formula.data, safeChar c = false) →
      evaluate_formula ev formula stats =
          Except.error ("Invalid formula: " ++ formula) ∧
        calculate_derived_value ev formula stats = 0 ∧
        ((code, formula) ∈ defs →
          (code, (0 : ℚ)) ∈ calculate_derived_stats ev defs stats)) ∧
    (∀ (ev : String → Except String ℚ) (formula : String)
        (stats : List (String × ℤ)) (e : String),
      evaluate_formula ev formula stats = Except.error e →
      calculate_derived_value ev formula stats = 0) ∧
    safeChar ';' = false ∧
    (∀ c : Char,
      c ∈ "abcdefghijklmnopqrstuvwxyzABCDEFGHIJKLMNOPQRSTUVWXYZ".data →
      c ∉ ['S', 'T', 'R', 'I', 'N', 'W', 'A', 'C', 'H', 'L', 'K'] →
      safeChar c = false) := by
  refine ⟨?_, ?_, by decide, by decide⟩
  · intro ev formula stats defs code hunsafe
    obtain ⟨c, hc, hcf⟩ := hunsafe
    have hall : formula.data.all safeChar = false := by
      apply List.all_eq_false.mpr
      exact ⟨c, hc, by simp [hcf]⟩
    have hsafe : safeFormula formula = false := by
      simp [safeFormula, hall]
    have heval : evaluate_formula ev formula stats =
        Except.error ("Invalid formula: " ++ formula) := by
      simp [evaluate_formula, hsafe]
    refine ⟨heval, by simp [calculate_derived_value, heval], ?_⟩
    intro hmem
    have : (code, calculate_derived_value ev formula stats) ∈
        calculate_derived_stats ev defs stats :=
      List.mem_map.mpr ⟨(code, formula), hmem, rfl⟩
    simpa [calculate_derived_value, heval] using this
  · intro ev formula stats e herr
    simp [calculate_derived_value, herr]

/-- Witness for `C7_formula_rejection`: the formula `"STR; 1"` (containing
a semicolon) is rejected and defaults to 0, even under a back end that
would return 42. -/
theorem C7_formula_rejection_witness :
    evaluate_formula (fun _ => Except.ok 42) "STR; 1" [("STR", 12)] =
        Except.error ("Invalid formula: " ++ "STR; 1") ∧
      calculate_derived_value (fun _ => Except.ok 42) "STR; 1"
          [("STR", 12)] = 0 ∧
      (("power", "STR; 1") ∈ [("power", "STR; 1")] →
        ("power", (0 : ℚ)) ∈
          calculate_derived_stats (fun _ => Except.ok 42)
            [("power", "STR; 1")] [("STR", 12)]) :=
  C7_formula_rejection.1 (fun _ => Except.ok 42) "STR; 1" [("STR", 12)]
    [("power", "STR; 1")] "power" ⟨';', by decide, by decide⟩

/-! ## Skill-tree graph engine (`tree_engine.py`)

The store is one character's view: the static node/edge configuration
(`StatNodeDB`, `StatNodeEdgeDB`), the character row (`CharacterDB`), its
stat rows (`CharacterStatDB`, one row per stat code — the table is keyed by
`(character_id, stat_code)`), and its allocation rows (`CharacterNodeDB`,
kept in insertion order).  `_node_cache` / `_edge_cache` are loaded from
the active nodes and all edges; ORM objects mutated in place (the character
row, stat rows) become explicit state threading, and pending
`session.add`s are visible to later reads in the same transaction
(SQLAlchemy autoflush), so each node of a batch is validated against the
already-mutated state. -/

structure NodeEffect where
  type : String
  stat : Option String
  value : Option ℚ
deriving DecidableEq

structure StatNodeRec where
  id : Nat
  code : String
  node_type : String
  required_points : Option Nat
  effects : List NodeEffect
  is_active : Bool
deriving DecidableEq

structure EdgeRec where
  from_node_id : Nat
  to_node_id : Nat
  bidirectional : Bool
deriving DecidableEq

structure CharacterRec where
  stat_points : ℤ
  respec_tokens : ℤ
deriving DecidableEq

structure StatRec where
  stat_code : String
  base_value : ℤ
  allocated_bonus : ℤ
deriving DecidableEq

structure TreeState where
  nodes : List StatNodeRec
  edges : List EdgeRec
  character : Option CharacterRec
  stats : List StatRec
  allocations : List Nat
deriving DecidableEq

structure AllocateResponse where
  success : Bool
  points_spent : Nat
  points_remaining : ℤ
  nodes_allocated : List String
  stat_changes : List (String × ℤ × ℤ)
  new_effects : List NodeEffect
  errors : List String
deriving DecidableEq

structure RespecResponse where
  success : Bool
  nodes_removed : Nat
  points_refunded : Nat
  respec_tokens_remaining : ℤ
deriving DecidableEq

/-- Python `node.required_points or 1` (both `None` and `0` are falsy). -/
def orOne (o : Option Nat) : Nat :=
  match o with
  | some n => if n = 0 then 1 else n
  | none => 1

/-- The f-string interpolation `{node.required_points}` (raw field,
`None` prints as `"None"`). -/
def reqPointsStr (o : Option Nat) : String :=
  match o with
  | some n => toString n
  | none => "None"

/-- The nodes loaded into `_node_cache` (`where is_active == True`). -/
def activeNodes (s : TreeState) : List StatNodeRec :=
  s.nodes.filter (fun n => n.is_active)

/-- `self._node_cache.get(code)`: the cache dict is built in iteration
order, so for a duplicated code the last active node wins (node codes are
unique in the store, so this is ordinarily the only active node with that
code). -/
def lookupNode (s : TreeState) (code : String) : Option StatNodeRec :=
  (activeNodes s).reverse.find? (fun n => n.code == code)

/-- `target in self._edge_cache.get(a, [])`: the adjacency cache holds
`to` under `from` for every edge, and also `from` under `to` when the edge
is bidirectional. -/
def cacheAdj (edges : List EdgeRec) (a target : Nat) : Bool :=
  edges.any (fun e =>
    (e.from_node_id == a && e.to_node_id == target) ||
    (e.bidirectional && e.to_node_id == a && e.from_node_id == target))

/-- `TreeEngine._is_reachable`. -/
def is_reachable (s : TreeState) (target_id : Nat)
    (allocated_ids : List Nat) : Bool :=
  if allocated_ids.isEmpty then
    (activeNodes s).any (fun n => n.id == target_id && n.node_type == "origin")
  else
    allocated_ids.any (fun a => cacheAdj s.edges a target_id)

/-- `TreeEngine.can_allocate`, returning `(ok, reason)` with the exact
message strings of the source. -/
def can_allocate (s : TreeState) (node_code : String) : Bool × String :=
  match lookupNode s node_code with
  | none => (false, "Node not found: " ++ node_code)
  | some node =>
    match s.character with
    | none => (false, "Character not found")
    | some character =>
      if character.stat_points < (orOne node.required_points : ℤ) then
        (false, "Not enough stat points (need " ++
          reqPointsStr node.required_points ++ ")")
      else if node.id ∈ s.allocations then
        (false, "Node already allocated")
      else if !(is_reachable s node.id s.allocations) then
        (false, "Node not reachable from current allocations")
      else (true, "OK")

/-- Python truthiness of `effect.stat` (an `Optional[str]`). -/
def statTruthy (o : Option String) : Bool :=
  match o with
  | some s => !(s == "")
  | none => false

/-- `int(effect.value or 0)` (`value or 0` equals `value` unless it is
`None` or `0.0`, and is numerically `value.getD 0` in every case). -/
def effectBonus (o : Option ℚ) : ℤ := pytrunc (o.getD 0)

/-- `stats[effect.stat].allocated_bonus += bonus` through the per-code
stat-row dict. -/
def bumpStat (stats : List StatRec) (code : String) (bonus : ℤ) :
    List StatRec :=
  stats.map (fun r =>
    if r.stat_code == code then
      { r with allocated_bonus := r.allocated_bonus + bonus }
    else r)

/-- `stat_changes[effect.stat]["after"] += bonus`. -/
def bumpChange (changes : List (String × ℤ × ℤ)) (code : String)
    (bonus : ℤ) : List (String × ℤ × ℤ) :=
  changes.map (fun ch =>
    if ch.1 == code then (ch.1, ch.2.1, ch.2.2 + bonus) else ch)

/-- The mutable state of one `allocate_nodes` call: the store state plus
the response accumulators. -/
structure AllocState where
  s : TreeState
  errors : List String
  allocated : List String
  total_points : Nat
  stat_changes : List (String × ℤ × ℤ)
  new_effects : List NodeEffect

/-- One iteration of the effects loop of `allocate_nodes`: append to
`new_effects`; for a truthy `stat_bonus` whose stat has a row, bump the
row's `allocated_bonus` and the tracked `after` value. -/
def applyEffect (st : AllocState) (e : NodeEffect) : AllocState :=
  let st1 := { st with new_effects := st.new_effects ++ [e] }
  if e.type == "stat_bonus" && statTruthy e.stat then
    if st1.s.stats.any (fun r => r.stat_code == e.stat.getD "") then
      let bonus := effectBonus e.value
      { st1 with
        s := { st1.s with
          stats := bumpStat st1.s.stats (e.stat.getD "") bonus },
        stat_changes := bumpChange st1.stat_changes (e.stat.getD "") bonus }
    else st1
  else st1

/-- One iteration of the per-node loop of `allocate_nodes`: validate with
`can_allocate` against the current state, re-check points, then deduct
points, insert the allocation row, record the code, and apply the node's
effects. -/
def allocStep (st : AllocState) (code : String) : AllocState :=
  let chk := can_allocate st.s code
  if !chk.1 then
    { st with errors := st.errors ++ [code ++ ": " ++ chk.2] }
  else
    match lookupNode st.s code with
    | none => st
    | some node =>
      let points_needed := orOne node.required_points
      match st.s.character with
      | none => st
      | some character =>
        if character.stat_points < (points_needed : ℤ) then
          { st with errors := st.errors ++ [code ++ ": Not enough points"] }
        else
          let st1 : AllocState := { st with
            s := { st.s with
              character := some { character with
                stat_points := character.stat_points - points_needed },
              allocations := st.s.allocations ++ [node.id] },
            total_points := st.total_points + points_needed,
            allocated := st.allocated ++ [code] }
          node.effects.foldl applyEffect st1

/-- The initial `stat_changes` tracking dict:
`{code: {"before": total, "after": total}}` for every stat row. -/
def initChanges (stats : List StatRec) : List (String × ℤ × ℤ) :=
  stats.map (fun r =>
    (r.stat_code, r.base_value + r.allocated_bonus,
      r.base_value + r.allocated_bonus))

/-- `TreeEngine.allocate_nodes`. -/
def allocate_nodes (s : TreeState) (node_codes : List String) :
    AllocateResponse × TreeState :=
  match s.character with
  | none =>
    (⟨false, 0, 0, [], [], [], ["Character not found"]⟩, s)
  | some _ =>
    let init : AllocState := ⟨s, [], [], 0, initChanges s.stats, []⟩
    let final := node_codes.foldl allocStep init
    let points_remaining : ℤ :=
      match final.s.character with
      | some ch => ch.stat_points
      | none => 0
    (⟨decide (0 < final.allocated.length),
      final.total_points,
      points_remaining,
      final.allocated,
      final.stat_changes.filter (fun c => !(c.2.1 == c.2.2)),
      final.new_effects,
      final.errors⟩,
     final.s)

/-- The refund contribution of one allocation row in `respec`: look the
node up by id in the store (`scalar_one_or_none`; node ids are unique) and
take `required_points or 1`, or 0 when the node row is gone. -/
def refundOf (nodes : List StatNodeRec) (node_id : Nat) : Nat :=
  match nodes.find? (fun n => n.id == node_id) with
  | some node => orOne node.required_points
  | none => 0

/-- `TreeEngine.respec`. -/
def respec (s : TreeState) : RespecResponse × TreeState :=
  match s.character with
  | none => (⟨false, 0, 0, 0⟩, s)
  | some character =>
    if character.respec_tokens ≤ 0 then (⟨false, 0, 0, 0⟩, s)
    else
      let total_refund := (s.allocations.map (refundOf s.nodes)).sum
      let nodes_removed := s.allocations.length
      let s1 : TreeState := { s with
        allocations := [],
        stats := s.stats.map (fun r => { r with allocated_bonus := 0 }),
        character := some { character with
          stat_points := character.stat_points + total_refund,
          respec_tokens := character.respec_tokens - 1 } }
      (⟨true, nodes_removed, total_refund, character.respec_tokens - 1⟩, s1)

/-- The refund `respec` would compute on a state: the sum of
`required_points or 1` over every allocation row. -/
def refundSum (s : TreeState) : Nat :=
  (s.allocations.map (refundOf s.nodes)).sum

/-- A sequence of `allocate_nodes` calls, accumulating the total points
spent across the batches. -/
def runBatches (s : TreeState) (batches : List (List String)) :
    Nat × TreeState :=
  batches.foldl
    (fun acc batch =>
      ((acc.1 + (allocate_nodes acc.2 batch).1.points_spent),
        (allocate_nodes acc.2 batch).2))
    (0, s)

/-! ### Claim C10: respec on an empty allocation set -/

/-- Claim C10: for every character with at least one respec token and no
allocated nodes, `respec` still succeeds: it reports 0 nodes removed,
refunds 0 points, leaves `stat_points` unchanged, and still consumes
exactly one respec token. -/
theorem C10_respec_empty (s : TreeState) (ch : CharacterRec)
    (hch : s.character = some ch)
    (htok : 1 ≤ ch.respec_tokens)
    (halloc : s.allocations = []) :
    (respec s).1 = ⟨true, 0, 0, ch.respec_tokens - 1⟩ ∧
      (respec s).2.character =
        some ⟨ch.stat_points, ch.respec_tokens - 1⟩ ∧
      (respec s).2.allocations = [] := by
  have hnotok : ¬ ch.respec_tokens ≤ 0 := by omega
  simp [respec, hch, hnotok, halloc]

/-- Witness for `C10_respec_empty`. -/
theorem C10_respec_empty_witness :
    (respec ⟨[], [], some ⟨5, 2⟩, [⟨"STR", 10, 3⟩], []⟩).1 =
        ⟨true, 0, 0, 1⟩ ∧
      (respec ⟨[], [], some ⟨5, 2⟩, [⟨"STR", 10, 3⟩], []⟩).2.character =
        some ⟨5, 1⟩ ∧
      (respec ⟨[], [], some ⟨5, 2⟩, [⟨"STR", 10, 3⟩], []⟩).2.allocations =
        [] :=
  C10_respec_empty ⟨[], [], some ⟨5, 2⟩, [⟨"STR", 10, 3⟩], []⟩ ⟨5, 2⟩
    rfl (by decide) rfl

/-! ### Claim C2: the `can_allocate` error cascade -/

/-- The spec's adjacency: node `nid` is adjacent to `a` via an edge from
`a` to `nid`, or — when the edge is bidirectional — via an edge from `nid`
to `a`. -/
def AdjacentSpec (edges : List EdgeRec) (a nid : Nat) : Prop :=
  ∃ e ∈ edges,
    (e.from_node_id = a ∧ e.to_node_id = nid) ∨
    (e.bidirectional = true ∧ e.to_node_id = a ∧ e.from_node_id = nid)

/-- The spec's `Reachable(A)`: when the allocation set is empty, exactly
the origin-type nodes; otherwise exactly the nodes adjacent to some
allocated node. -/
def ReachableSpec (s : TreeState) (nid : Nat) : Prop :=
  (s.allocations = [] ∧
    ∃ n ∈ activeNodes s, n.id = nid ∧ n.node_type = "origin") ∨
  (s.allocations ≠ [] ∧ ∃ a ∈ s.allocations, AdjacentSpec s.edges a nid)

theorem is_reachable_iff (s : TreeState) (nid : Nat) :
    is_reachable s nid s.allocations = true ↔ ReachableSpec s nid := by
  by_cases hA : s.allocations = []
  · simp [is_reachable, ReachableSpec, hA, List.any_eq_true]
  · have hne : s.allocations.isEmpty = false := by
      simpa [List.isEmpty_iff] using hA
    simp only [is_reachable, ReachableSpec, hA, hne, List.any_eq_true,
      cacheAdj, AdjacentSpec, Bool.ite_eq_true_distrib, if_false,
      Bool.or_eq_true, Bool.and_eq_true, beq_iff_eq, false_and, false_or,
      ne_eq, not_false_eq_true, true_and]
    constructor
    · rintro ⟨a, ha, e, he, h⟩
      exact ⟨a, ha, e, he, by tauto⟩
    · rintro ⟨a, ha, e, he, h⟩
      exact ⟨a, ha, e, he, by tauto⟩

/-- Claim C2: the full error cascade of `CanAllocate`, in the code's
precedence order: `NotFound` ("Node not found"/"Character not found") when
the node or character is unknown; `InsufficientPoints` ("Not enough stat
points") when `stat_points < required_points or 1`; `AlreadyAllocated` when
the node is in the allocation set; `Unreachable` when the node is not in
the spec's `Reachable(A)` (origin-type nodes only when `A` is empty,
otherwise exactly edge-adjacency — symmetric for bidirectional edges — to
some allocated node); success otherwise.  The last conjunct identifies the
code's reachability test with the spec's `Reachable(A)`. -/
theorem C2_can_allocate_cases (s : TreeState) (code : String) :
    (lookupNode s code = none →
      can_allocate s code = (false, "Node not found: " ++ code)) ∧
    (∀ node, lookupNode s code = some node → s.character = none →
      can_allocate s code = (false, "Character not found")) ∧
    (∀ node ch, lookupNode s code = some node → s.character = some ch →
      ch.stat_points < (orOne node.required_points : ℤ) →
      can_allocate s code =
        (false, "Not enough stat points (need " ++
          reqPointsStr node.required_points ++ ")")) ∧
    (∀ node ch, lookupNode s code = some node → s.character = some ch →
      (orOne node.required_points : ℤ) ≤ ch.stat_points →
      node.id ∈ s.allocations →
      can_allocate s code = (false, "Node already allocated")) ∧
    (∀ node ch, lookupNode s code = some node → s.character = some ch →
      (orOne node.required_points : ℤ) ≤ ch.stat_points →
      node.id ∉ s.allocations →
      ¬ ReachableSpec s node.id →
      can_allocate s code =
        (false, "Node not reachable from current allocations")) ∧
    (∀ node ch, lookupNode s code = some node → s.character = some ch →
      (orOne node.required_points : ℤ) ≤ ch.stat_points →
      node.id ∉ s.allocations →
      ReachableSpec s node.id →
      can_allocate s code = (true, "OK")) ∧
    (∀ nid, is_reachable s nid s.allocations = true ↔ ReachableSpec s nid) := by
  refine ⟨?_, ?_, ?_, ?_, ?_, ?_, fun nid => is_reachable_iff s nid⟩
  · intro hnone
    simp [can_allocate, hnone]
  · intro node hnode hch
    simp [can_allocate, hnode, hch]
  · intro node ch hnode hch hpts
    simp [can_allocate, hnode, hch, hpts]
  · intro node ch hnode hch hpts hmem
    have hnotlt : ¬ ch.stat_points < (orOne node.required_points : ℤ) := by
      omega
    simp [can_allocate, hnode, hch, hnotlt, hmem]
  · intro node ch hnode hch hpts hmem hreach
    have hnotlt : ¬ ch.stat_points < (orOne node.required_points : ℤ) := by
      omega
    have hre : is_reachable s node.id s.allocations = false := by
      rw [← Bool.not_eq_true, is_reachable_iff]
      exact hreach
    simp [can_allocate, hnode, hch, hnotlt, hmem, hre]
  · intro node ch hnode hch hpts hmem hreach
    have hnotlt : ¬ ch.stat_points < (orOne node.required_points : ℤ) := by
      omega
    have hre : is_reachable s node.id s.allocations = true :=
      (is_reachable_iff s node.id).mpr hreach
    simp [can_allocate, hnode, hch, hnotlt, hmem, hre]

instance (s : TreeState) (nid : Nat) : Decidable (ReachableSpec s nid) := by
  unfold ReachableSpec AdjacentSpec
  infer_instance

/-- Witness for `C2_can_allocate_cases`: in a two-node tree (origin `A`
allocated, `B` adjacent to it via a bidirectional edge) with 3 stat points,
allocating `B` passes every check. -/
theorem C2_can_allocate_cases_witness :
    can_allocate
      ⟨[⟨1, "A", "origin", some 1, [], true⟩,
        ⟨2, "B", "minor", some 1, [], true⟩],
       [⟨1, 2, true⟩], some ⟨3, 1⟩, [], [1]⟩ "B" = (true, "OK") :=
  (C2_can_allocate_cases _ "B").2.2.2.2.2.1
    ⟨2, "B", "minor", some 1, [], true⟩ ⟨3, 1⟩
    (by decide) (by decide) (by decide) (by decide) (by decide)

/-! ### Structural lemmas about the allocation loop -/

theorem applyEffect_proj (st : AllocState) (e : NodeEffect) :
    (applyEffect st e).s.nodes = st.s.nodes ∧
    (applyEffect st e).s.edges = st.s.edges ∧
    (applyEffect st e).s.character = st.s.character ∧
    (applyEffect st e).s.allocations = st.s.allocations ∧
    (applyEffect st e).errors = st.errors ∧
    (applyEffect st e).allocated = st.allocated ∧
    (applyEffect st e).total_points = st.total_points := by
  unfold applyEffect
  by_cases h1 : (e.type == "stat_bonus" && statTruthy e.stat) = true
  · simp only [h1, if_true]
    by_cases h2 :
        (st.s.stats.any (fun r => r.stat_code == e.stat.getD "")) = true
    · simp [h2]
    · simp [h2]
  · simp [h1]

theorem effectsFold_proj (l : List NodeEffect) (st : AllocState) :
    ((l.foldl applyEffect st).s.nodes = st.s.nodes ∧
      (l.foldl applyEffect st).s.edges = st.s.edges ∧
      (l.foldl applyEffect st).s.character = st.s.character ∧
      (l.foldl applyEffect st).s.allocations = st.s.allocations) ∧
    ((l.foldl applyEffect st).errors = st.errors ∧
      (l.foldl applyEffect st).allocated = st.allocated ∧
      (l.foldl applyEffect st).total_points = st.total_points) := by
  induction l generalizing st with
  | nil => simp
  | cons e rest ih =>
    obtain ⟨p1, p2, p3, p4, p5, p6, p7⟩ := applyEffect_proj st e
    obtain ⟨⟨q1, q2, q3, q4⟩, q5, q6, q7⟩ := ih (applyEffect st e)
    exact ⟨⟨q1.trans p1, q2.trans p2, q3.trans p3, q4.trans p4⟩,
      q5.trans p5, q6.trans p6, q7.trans p7⟩

theorem can_allocate_ok (s : TreeState) (c : String)
    (h : (can_allocate s c).1 = true) :
    ∃ node ch, lookupNode s c = some node ∧ s.character = some ch ∧
      ¬ ch.stat_points < (orOne node.required_points : ℤ) ∧
      node.id ∉ s.allocations ∧
      is_reachable s node.id s.allocations = true := by
  unfold can_allocate at h
  split at h
  · simp at h
  next node heq =>
    split at h
    · simp at h
    next ch heq2 =>
      split at h
      · simp at h
      · split at h
        · simp at h
        · split at h
          · simp at h
          next h3 =>
            rename_i h1 h2
            refine ⟨node, ch, heq, heq2, h1, h2, ?_⟩
            simpa using h3

theorem allocStep_fail (st : AllocState) (c : String)
    (hfail : (can_allocate st.s c).1 = false) :
    allocStep st c =
      { st with errors := st.errors ++ [c ++ ": " ++ (can_allocate st.s c).2] } := by
  unfold allocStep
  simp [hfail]

theorem allocStep_success (st : AllocState) (c : String)
    (node : StatNodeRec) (ch : CharacterRec)
    (hnode : lookupNode st.s c = some node)
    (hch : st.s.character = some ch)
    (hok : (can_allocate st.s c).1 = true) :
    allocStep st c =
      node.effects.foldl applyEffect
        { st with
          s := { st.s with
            character := some ⟨ch.stat_points - orOne node.required_points,
              ch.respec_tokens⟩,
            allocations := st.s.allocations ++ [node.id] },
          total_points := st.total_points + orOne node.required_points,
          allocated := st.allocated ++ [c] } := by
  obtain ⟨node2, ch2, hnode2, hch2, hpts, hmem, hre⟩ := can_allocate_ok _ _ hok
  rw [hnode] at hnode2
  rw [hch] at hch2
  cases hnode2
  cases hch2
  unfold allocStep
  simp only [hok, Bool.not_true, Bool.false_eq_true, if_false, hnode, hch,
    hpts, if_false]

theorem effectsFold_stats_unchanged (l : List NodeEffect) (st : AllocState)
    (h : ∀ e ∈ l, e.type = "stat_bonus" → statTruthy e.stat = true →
      (st.s.stats.any (fun r => r.stat_code == e.stat.getD "")) = false) :
    (l.foldl applyEffect st).s.stats = st.s.stats ∧
    (l.foldl applyEffect st).stat_changes = st.stat_changes := by
  induction l generalizing st with
  | nil => simp
  | cons e rest ih =>
    have hstep : (applyEffect st e).s.stats = st.s.stats ∧
        (applyEffect st e).stat_changes = st.stat_changes := by
      unfold applyEffect
      by_cases h1 : (e.type == "stat_bonus" && statTruthy e.stat) = true
      · have htyp : e.type = "stat_bonus" := by
          have := (Bool.and_eq_true _ _).mp h1
          simpa using this.1
        have htr : statTruthy e.stat = true := by
          have := (Bool.and_eq_true _ _).mp h1
          simpa using this.2
        have h2 := h e (List.mem_cons_self e rest) htyp htr
        simp [h1, h2]
      · simp [h1]
    have hrest := ih (applyEffect st e) (by
      intro e2 he2 htyp htr
      rw [hstep.1]
      exact h e2 (List.mem_cons_of_mem e he2) htyp htr)
    simp only [List.foldl_cons]
    exact ⟨hrest.1.trans hstep.1, hrest.2.trans hstep.2⟩

theorem initChanges_filter (stats : List StatRec) :
    (initChanges stats).filter (fun c => !(c.2.1 == c.2.2)) = [] := by
  induction stats with
  | nil => rfl
  | cons r rest ih =>
    simp only [initChanges, List.map_cons, List.filter_cons] at *
    simp [ih]

/-- Claim C9: allocating a node whose `stat_bonus` effects all target stat
codes with no stat row for this character still succeeds — the node's
required points are deducted and the node is recorded — but the bonus is
silently not applied anywhere: no stat row changes, the reported stat
changes are empty, and no per-node error is recorded. -/
theorem C9_missing_stat_row (s : TreeState) (code : String)
    (node : StatNodeRec) (ch : CharacterRec)
    (hch : s.character = some ch)
    (hnode : lookupNode s code = some node)
    (hok : (can_allocate s code).1 = true)
    (hmiss : ∀ e ∈ node.effects, e.type = "stat_bonus" →
      statTruthy e.stat = true →
      (s.stats.any (fun r => r.stat_code == e.stat.getD "")) = false) :
    (allocate_nodes s [code]).1.success = true ∧
    (allocate_nodes s [code]).1.nodes_allocated = [code] ∧
    (allocate_nodes s [code]).1.points_spent = orOne node.required_points ∧
    (allocate_nodes s [code]).1.errors = [] ∧
    (allocate_nodes s [code]).1.stat_changes = [] ∧
    (allocate_nodes s [code]).2.stats = s.stats ∧
    (allocate_nodes s [code]).2.character =
      some ⟨ch.stat_points - orOne node.required_points, ch.respec_tokens⟩ := by
  have hinit : (⟨s, [], [], 0, initChanges s.stats, []⟩ : AllocState).s = s := rfl
  have hstep := allocStep_success ⟨s, [], [], 0, initChanges s.stats, []⟩ code
    node ch hnode hch hok
  set st1 : AllocState :=
    { s := { s with
        character := some ⟨ch.stat_points - orOne node.required_points,
          ch.respec_tokens⟩,
        allocations := s.allocations ++ [node.id] },
      errors := [],
      allocated := [code],
      total_points := orOne node.required_points,
      stat_changes := initChanges s.stats,
      new_effects := [] } with hst1
  have hstep' : allocStep ⟨s, [], [], 0, initChanges s.stats, []⟩ code =
      node.effects.foldl applyEffect st1 := by
    rw [hstep]
    simp [hst1]
  have hproj := effectsFold_proj node.effects st1
  have hstats := effectsFold_stats_unchanged node.effects st1 (by
    intro e he htyp htr
    exact hmiss e he htyp htr)
  unfold allocate_nodes
  rw [hch]
  simp only [List.foldl_cons, List.foldl_nil, hstep']
  refine ⟨?_, ?_, ?_, ?_, ?_, ?_, ?_⟩
  · simp [hproj.2.2.1]
  · simp [hproj.2.2.1]
  · simp [hproj.2.2.2]
  · simp [hproj.2.1]
  · simp [hstats.2, initChanges_filter]
  · simp [hstats.1]
  · simp [hproj.1.2.2.1]

/-- A concrete scenario for `C9_missing_stat_row`: an origin node granting
`stat_bonus` of 2 to `STR`, for a character with 3 stat points and no stat
rows at all. -/
def missingStatState : TreeState :=
  ⟨[⟨1, "A", "origin", some 1, [⟨"stat_bonus", some "STR", some 2⟩], true⟩],
    [], some ⟨3, 1⟩, [], []⟩

/-- Witness for `C9_missing_stat_row`. -/
theorem C9_missing_stat_row_witness :
    (allocate_nodes missingStatState ["A"]).1.success = true ∧
      (allocate_nodes missingStatState ["A"]).1.errors = [] ∧
      (allocate_nodes missingStatState ["A"]).1.stat_changes = [] ∧
      (allocate_nodes missingStatState ["A"]).2.stats = [] ∧
      (allocate_nodes missingStatState ["A"]).1.points_spent = 1 :=
  have h := C9_missing_stat_row missingStatState "A"
    ⟨1, "A", "origin", some 1, [⟨"stat_bonus", some "STR", some 2⟩], true⟩
    ⟨3, 1⟩ rfl (by decide) (by decide) (by decide)
  ⟨h.1, h.2.2.2.1, h.2.2.2.2.1,
    by rw [h.2.2.2.2.2.1]; rfl, h.2.2.1⟩

/-! ### Claim C3: duplicate node codes in one batch -/

theorem lookupNode_congr (s1 s2 : TreeState) (h : s1.nodes = s2.nodes)
    (c : String) : lookupNode s1 c = lookupNode s2 c := by
  unfold lookupNode activeNodes
  rw [h]

theorem allocStep_nodes_eq (st : AllocState) (c : String) :
    (allocStep st c).s.nodes = st.s.nodes := by
  by_cases hok : (can_allocate st.s c).1 = true
  · obtain ⟨node, ch, hnode, hch, _, _, _⟩ := can_allocate_ok _ _ hok
    rw [allocStep_success st c node ch hnode hch hok]
    exact (effectsFold_proj _ _).1.1
  · rw [allocStep_fail st c (Bool.eq_false_iff.mpr hok)]

theorem allocStep_split (st : AllocState) (c : String) :
    ((allocStep st c).allocated = st.allocated ∧
      (allocStep st c).s.allocations = st.s.allocations) ∨
    (∃ node, lookupNode st.s c = some node ∧
      node.id ∉ st.s.allocations ∧
      (allocStep st c).allocated = st.allocated ++ [c] ∧
      (allocStep st c).s.allocations = st.s.allocations ++ [node.id]) := by
  by_cases hok : (can_allocate st.s c).1 = true
  · obtain ⟨node, ch, hnode, hch, hpts, hmem, hre⟩ := can_allocate_ok _ _ hok
    right
    refine ⟨node, hnode, hmem, ?_, ?_⟩
    · rw [allocStep_success st c node ch hnode hch hok]
      exact (effectsFold_proj _ _).2.2.1
    · rw [allocStep_success st c node ch hnode hch hok]
      exact (effectsFold_proj _ _).1.2.2.2
  · rw [allocStep_fail st c (Bool.eq_false_iff.mpr hok)]
    exact Or.inl ⟨rfl, rfl⟩

/-- The loop invariant behind "a node is allocated at most once per batch":
every code recorded as allocated has its node id in the allocation set, and
no code is recorded twice. -/
def AllocInv (st : AllocState) : Prop :=
  ∀ c, (c ∈ st.allocated →
      ∃ n, lookupNode st.s c = some n ∧ n.id ∈ st.s.allocations) ∧
    st.allocated.count c ≤ 1

theorem allocStep_inv_preserved (st : AllocState) (c : String)
    (h : AllocInv st) : AllocInv (allocStep st c) := by
  have hn := allocStep_nodes_eq st c
  have hlook := lookupNode_congr (allocStep st c).s st.s hn
  rcases allocStep_split st c with ⟨ha, hb⟩ | ⟨node, hnode, hmem, ha, hb⟩
  · intro c'
    rw [ha, hb, hlook c']
    exact h c'
  · intro c'
    constructor
    · intro hc'
      rw [ha] at hc'
      rcases List.mem_append.mp hc' with hold | hnew
      · obtain ⟨n, hn1, hn2⟩ := (h c').1 hold
        exact ⟨n, (hlook c').trans hn1, by rw [hb]; exact List.mem_append_left _ hn2⟩
      · have : c' = c := by simpa using hnew
        subst this
        exact ⟨node, (hlook c').trans hnode, by rw [hb]; simp⟩
    · rw [ha, List.count_append]
      by_cases hcc : c' = c
      · subst hcc
        have hzero : st.allocated.count c' = 0 := by
          rw [List.count_eq_zero]
          intro hmem2
          obtain ⟨n, hn1, hn2⟩ := (h c').1 hmem2
          rw [hnode] at hn1
          cases hn1
          exact hmem hn2
        simp [hzero]
      · have : List.count c' [c] = 0 := by
          rw [List.count_eq_zero]
          simp [hcc]
        have hc2 := (h c').2
        omega
    
theorem allocFold_inv (codes : List String) (st : AllocState)
    (h : AllocInv st) : AllocInv (codes.foldl allocStep st) := by
  induction codes generalizing st with
  | nil => exact h
  | cons c rest ih => exact ih _ (allocStep_inv_preserved st c h)

/-- A one-node tree with exactly enough points for a single allocation:
submitting `["A", "A"]` allocates once, and the *second* occurrence fails
the points check (which `can_allocate` tests before the already-allocated
check), so it is reported as "Not enough stat points", not as
"Node already allocated". -/
def dupBatchState : TreeState :=
  ⟨[⟨1, "A", "origin", some 1, [], true⟩], [], some ⟨1, 0⟩, [], []⟩

/-- Claim C3, counterexample: in `dupBatchState` the batch `["A", "A"]`
allocates `A` once, but the later occurrence is recorded as
`"A: Not enough stat points (need 1)"` — no `AlreadyAllocated` error
appears anywhere in the batch's error list, contradicting the claim that
the later occurrence is recorded as an AlreadyAllocated error. -/
theorem C3_counterexample :
    (allocate_nodes dupBatchState ["A", "A"]).1.nodes_allocated = ["A"] ∧
    (allocate_nodes dupBatchState ["A", "A"]).1.errors =
      ["A: Not enough stat points (need 1)"] ∧
    ¬ "A: Node already allocated" ∈
      (allocate_nodes dupBatchState ["A", "A"]).1.errors ∧
    (allocate_nodes dupBatchState ["A", "A"]).1.success = true := by
  refine ⟨by decide, by decide, by decide, by decide⟩

/-- Claim C3, amended: in a single allocate batch containing the same node
code twice, the node is allocated at most once — so its points are deducted
at most once — and the batch response reports success exactly when at least
one requested node was allocated.  The later occurrence is recorded as a
per-node error: `AlreadyAllocated` when the character still has enough
stat points for the node at that moment, but `InsufficientPoints`
("Not enough stat points") when the remaining points no longer cover the
node, because `can_allocate` tests points *before* the already-allocated
check (third and fourth conjuncts, stated on the loop body `allocStep`
processing the later occurrence against the already-mutated state). -/
theorem C3_duplicate_batch :
    (∀ (s : TreeState) (codes : List String) (c : String),
      (allocate_nodes s codes).1.nodes_allocated.count c ≤ 1) ∧
    (∀ (s : TreeState) (codes : List String),
      ((allocate_nodes s codes).1.success = true ↔
        (allocate_nodes s codes).1.nodes_allocated ≠ [])) ∧
    (∀ (st : AllocState) (c : String) (node : StatNodeRec)
        (ch : CharacterRec),
      lookupNode st.s c = some node → st.s.character = some ch →
      (orOne node.required_points : ℤ) ≤ ch.stat_points →
      node.id ∈ st.s.allocations →
      allocStep st c =
        { st with errors :=
            st.errors ++ [c ++ ": " ++ "Node already allocated"] }) ∧
    (∀ (st : AllocState) (c : String) (node : StatNodeRec)
        (ch : CharacterRec),
      lookupNode st.s c = some node → st.s.character = some ch →
      ch.stat_points < (orOne node.required_points : ℤ) →
      allocStep st c =
        { st with errors := st.errors ++
            [c ++ ": " ++ ("Not enough stat points (need " ++
              reqPointsStr node.required_points ++ ")")] }) := by
  refine ⟨?_, ?_, ?_, ?_⟩
  · intro s codes c
    cases hch : s.character with
    | none => simp [allocate_nodes, hch]
    | some ch =>
      simp only [allocate_nodes, hch]
      have hinv : AllocInv ⟨s, [], [], 0, initChanges s.stats, []⟩ := by
        intro c2
        exact ⟨fun h => absurd h (List.not_mem_nil _), by simp⟩
      exact ((allocFold_inv codes _ hinv) c).2
  · intro s codes
    cases hch : s.character with
    | none => simp [allocate_nodes, hch]
    | some ch =>
      simp only [allocate_nodes, hch, decide_eq_true_eq]
      exact ⟨fun h => List.ne_nil_of_length_pos h,
        fun h => List.length_pos_of_ne_nil h⟩
  · intro st c node ch hnode hch hpts hmem
    have hnotlt : ¬ ch.stat_points < (orOne node.required_points : ℤ) := by
      omega
    have hca : can_allocate st.s c = (false, "Node already allocated") := by
      simp [can_allocate, hnode, hch, hnotlt, hmem]
    have hfail : (can_allocate st.s c).1 = false := by rw [hca]
    rw [allocStep_fail st c hfail, hca]
  · intro st c node ch hnode hch hpts
    have hca : can_allocate st.s c =
        (false, "Not enough stat points (need " ++
          reqPointsStr node.required_points ++ ")") := by
      simp [can_allocate, hnode, hch, hpts]
    have hfail : (can_allocate st.s c).1 = false := by rw [hca]
    rw [allocStep_fail st c hfail, hca]

/-- Witness for `C3_duplicate_batch` (third conjunct): once `A` is in the
allocation set and two points remain, re-processing `A` appends exactly the
already-allocated error. -/
theorem C3_duplicate_batch_witness :
    allocStep
        ⟨⟨[⟨1, "A", "origin", some 1, [], true⟩], [], some ⟨2, 0⟩, [], [1]⟩,
          [], ["A"], 1, [], []⟩ "A" =
      ⟨⟨[⟨1, "A", "origin", some 1, [], true⟩], [], some ⟨2, 0⟩, [], [1]⟩,
        ["A" ++ ": " ++ "Node already allocated"], ["A"], 1, [], []⟩ :=
  C3_duplicate_batch.2.2.1
    ⟨⟨[⟨1, "A", "origin", some 1, [], true⟩], [], some ⟨2, 0⟩, [], [1]⟩,
      [], ["A"], 1, [], []⟩ "A"
    ⟨1, "A", "origin", some 1, [], true⟩ ⟨2, 0⟩
    (by decide) (by decide) (by decide) (by decide)

/-! ### Claim C1: respec is a left inverse of allocation for points

The key invariant: every successful allocation of a node deducts exactly
`required_points or 1` from the character, adds the same amount to the
batch's `points_spent`, and appends an allocation row whose later
`respec` refund (a lookup by node id over the full node table) is that
same amount — provided node ids are unique, as they are primary keys. -/

theorem lookupNode_mem (s : TreeState) (c : String) (n : StatNodeRec)
    (h : lookupNode s c = some n) : n ∈ s.nodes := by
  unfold lookupNode at h
  have h1 := List.mem_of_find?_eq_some h
  rw [List.mem_reverse] at h1
  exact (List.mem_filter.mp h1).1

theorem find?_id_of_nodup (nodes : List StatNodeRec)
    (hnodup : (nodes.map (fun n => n.id)).Nodup) (n : StatNodeRec)
    (hn : n ∈ nodes) : nodes.find? (fun m => m.id == n.id) = some n := by
  induction nodes with
  | nil => cases hn
  | cons m rest ih =>
    rw [List.map_cons, List.nodup_cons] at hnodup
    rcases List.mem_cons.mp hn with heq | hmem
    · subst heq
      simp [List.find?_cons]
    · have hne : (m.id == n.id) = false := by
        rw [beq_eq_false_iff_ne]
        intro h
        exact hnodup.1 (h ▸ List.mem_map_of_mem (fun x => x.id) hmem)
      rw [List.find?_cons, hne]
      exact ih hnodup.2 hmem

theorem refundOf_eq (nodes : List StatNodeRec)
    (hnodup : (nodes.map (fun n => n.id)).Nodup) (n : StatNodeRec)
    (hn : n ∈ nodes) : refundOf nodes n.id = orOne n.required_points := by
  unfold refundOf
  rw [find?_id_of_nodup nodes hnodup n hn]

theorem effectsFold_nodes (l : List NodeEffect) (st : AllocState) :
    (l.foldl applyEffect st).s.nodes = st.s.nodes :=
  (effectsFold_proj l st).1.1

theorem effectsFold_character (l : List NodeEffect) (st : AllocState) :
    (l.foldl applyEffect st).s.character = st.s.character :=
  (effectsFold_proj l st).1.2.2.1

theorem effectsFold_allocations (l : List NodeEffect) (st : AllocState) :
    (l.foldl applyEffect st).s.allocations = st.s.allocations :=
  (effectsFold_proj l st).1.2.2.2

theorem effectsFold_total (l : List NodeEffect) (st : AllocState) :
    (l.foldl applyEffect st).total_points = st.total_points :=
  (effectsFold_proj l st).2.2.2

theorem allocStep_budget (st : AllocState) (c : String) (ch : CharacterRec)
    (hch : st.s.character = some ch)
    (hnodup : (st.s.nodes.map (fun n => n.id)).Nodup) :
    ∃ (d : Nat) (ch2 : CharacterRec),
      (allocStep st c).s.character = some ch2 ∧
      ch2.respec_tokens = ch.respec_tokens ∧
      ch2.stat_points = ch.stat_points - (d : ℤ) ∧
      (allocStep st c).total_points = st.total_points + d ∧
      refundSum (allocStep st c).s = refundSum st.s + d := by
  by_cases hok : (can_allocate st.s c).1 = true
  · obtain ⟨node, ch', hnode, hch', hpts, hmem, hre⟩ := can_allocate_ok _ _ hok
    rw [hch] at hch'
    injection hch' with hch''
    subst hch''
    refine ⟨orOne node.required_points,
      ⟨ch.stat_points - orOne node.required_points, ch.respec_tokens⟩,
      ?_, rfl, rfl, ?_, ?_⟩
    · rw [allocStep_success st c node ch hnode hch hok, effectsFold_character]
    · rw [allocStep_success st c node ch hnode hch hok, effectsFold_total]
    · rw [allocStep_success st c node ch hnode hch hok]
      unfold refundSum
      rw [effectsFold_nodes, effectsFold_allocations]
      dsimp only
      rw [List.map_append, List.sum_append]
      simp only [List.map_cons, List.map_nil, List.sum_cons, List.sum_nil]
      rw [refundOf_eq st.s.nodes hnodup node (lookupNode_mem st.s c node hnode)]
      omega
  · rw [allocStep_fail st c (Bool.eq_false_iff.mpr hok)]
    exact ⟨0, ch, hch, rfl, by simp, by simp, by simp⟩

theorem allocFold_budget (codes : List String) (st : AllocState)
    (ch : CharacterRec) (hch : st.s.character = some ch)
    (hnodup : (st.s.nodes.map (fun n => n.id)).Nodup) :
    ∃ (d : Nat) (ch2 : CharacterRec),
      (codes.foldl allocStep st).s.character = some ch2 ∧
      ch2.respec_tokens = ch.respec_tokens ∧
      ch2.stat_points = ch.stat_points - (d : ℤ) ∧
      (codes.foldl allocStep st).total_points = st.total_points + d ∧
      refundSum (codes.foldl allocStep st).s = refundSum st.s + d ∧
      (codes.foldl allocStep st).s.nodes = st.s.nodes := by
  induction codes generalizing st ch with
  | nil => exact ⟨0, ch, hch, rfl, by simp, by simp, by simp, rfl⟩
  | cons c rest ih =>
    obtain ⟨d1, ch2, h1, h2, h3, h4, h5⟩ := allocStep_budget st c ch hch hnodup
    have hn1 : (allocStep st c).s.nodes = st.s.nodes := allocStep_nodes_eq st c
    obtain ⟨d2, ch3, g1, g2, g3, g4, g5, g6⟩ :=
      ih (allocStep st c) ch2 h1 (by rw [hn1]; exact hnodup)
    rw [List.foldl_cons]
    refine ⟨d1 + d2, ch3, g1, g2.trans h2, ?_, ?_, ?_, g6.trans hn1⟩
    · rw [g3, h3]
      push_cast
      ring
    · omega
    · omega

theorem allocate_nodes_budget (s : TreeState) (codes : List String)
    (ch : CharacterRec) (hch : s.character = some ch)
    (hnodup : (s.nodes.map (fun n => n.id)).Nodup) :
    ∃ ch2, (allocate_nodes s codes).2.character = some ch2 ∧
      ch2.respec_tokens = ch.respec_tokens ∧
      ch2.stat_points =
        ch.stat_points - ((allocate_nodes s codes).1.points_spent : ℤ) ∧
      refundSum (allocate_nodes s codes).2 =
        refundSum s + (allocate_nodes s codes).1.points_spent ∧
      (allocate_nodes s codes).2.nodes = s.nodes := by
  obtain ⟨d, ch2, h1, h2, h3, h4, h5, h6⟩ :=
    allocFold_budget codes ⟨s, [], [], 0, initChanges s.stats, []⟩ ch hch hnodup
  simp only [allocate_nodes, hch]
  rw [Nat.zero_add] at h4
  exact ⟨ch2, h1, h2, by rw [h4]; exact h3, by rw [h4]; exact h5, h6⟩

theorem runBatchesAux_budget (batches : List (List String)) (p : Nat)
    (s : TreeState) (ch : CharacterRec) (hch : s.character = some ch)
    (hnodup : (s.nodes.map (fun n => n.id)).Nodup) :
    ∃ (d : Nat) (ch2 : CharacterRec),
      (batches.foldl
          (fun acc batch =>
            ((acc.1 + (allocate_nodes acc.2 batch).1.points_spent),
              (allocate_nodes acc.2 batch).2)) (p, s)).1 = p + d ∧
      (batches.foldl
          (fun acc batch =>
            ((acc.1 + (allocate_nodes acc.2 batch).1.points_spent),
              (allocate_nodes acc.2 batch).2)) (p, s)).2.character = some ch2 ∧
      ch2.respec_tokens = ch.respec_tokens ∧
      ch2.stat_points = ch.stat_points - (d : ℤ) ∧
      refundSum (batches.foldl
          (fun acc batch =>
            ((acc.1 + (allocate_nodes acc.2 batch).1.points_spent),
              (allocate_nodes acc.2 batch).2)) (p, s)).2 = refundSum s + d ∧
      (batches.foldl
          (fun acc batch =>
            ((acc.1 + (allocate_nodes acc.2 batch).1.points_spent),
              (allocate_nodes acc.2 batch).2)) (p, s)).2.nodes = s.nodes := by
  induction batches generalizing p s ch with
  | nil => exact ⟨0, ch, by simp, hch, rfl, by simp, by simp, rfl⟩
  | cons batch rest ih =>
    obtain ⟨ch2, h1, h2, h3, h4, h5⟩ := allocate_nodes_budget s batch ch hch hnodup
    obtain ⟨d2, ch3, g0, g1, g2, g3, g4, g5⟩ :=
      ih (p + (allocate_nodes s batch).1.points_spent)
        (allocate_nodes s batch).2 ch2 h1 (by rw [h5]; exact hnodup)
    rw [List.foldl_cons]
    dsimp only
    refine ⟨(allocate_nodes s batch).1.points_spent + d2, ch3, ?_, g1,
      g2.trans h2, ?_, ?_, g5.trans h5⟩
    · omega
    · rw [g3, h3]
      push_cast
      ring
    · omega

theorem runBatches_budget (batches : List (List String)) (s : TreeState)
    (ch : CharacterRec) (hch : s.character = some ch)
    (hnodup : (s.nodes.map (fun n => n.id)).Nodup) :
    ∃ ch2, (runBatches s batches).2.character = some ch2 ∧
      ch2.respec_tokens = ch.respec_tokens ∧
      ch2.stat_points = ch.stat_points - ((runBatches s batches).1 : ℤ) ∧
      refundSum (runBatches s batches).2 =
        refundSum s + (runBatches s batches).1 ∧
      (runBatches s batches).2.nodes = s.nodes := by
  obtain ⟨d, ch2, h0, h1, h2, h3, h4, h5⟩ :=
    runBatchesAux_budget batches 0 s ch hch hnodup
  rw [Nat.zero_add] at h0
  unfold runBatches
  exact ⟨ch2, h1, h2, by rw [h0]; exact h3, by rw [h0]; exact h4, h5⟩

/-- Claim C1: respec is a left inverse of allocation for points.  Starting
from a character with an empty allocation set, distinct node ids in the
store, and at least one respec token, any sequence of `allocate_nodes`
batches spending `P` points in total (`P = (runBatches s batches).1`, the
sum of `points_spent` over the batches, counting exactly the successful
per-node allocations) leaves the respec tokens untouched, and a subsequent
`respec` succeeds: it refunds exactly `P`, adds exactly `P` to the
character's `stat_points`, deletes every allocation row, zeroes
`allocated_bonus` on every stat row, and decrements `respec_tokens` by
exactly 1.  And (second conjunct) when `respec_tokens ≤ 0`, `respec` fails
and mutates nothing. -/
theorem C1_respec_left_inverse :
    (∀ (s : TreeState) (ch : CharacterRec) (batches : List (List String)),
      s.character = some ch →
      s.allocations = [] →
      (s.nodes.map (fun n => n.id)).Nodup →
      1 ≤ ch.respec_tokens →
      ∃ ch1, (runBatches s batches).2.character = some ch1 ∧
        ch1.respec_tokens = ch.respec_tokens ∧
        (respec (runBatches s batches).2).1 =
          ⟨true, (runBatches s batches).2.allocations.length,
            (runBatches s batches).1, ch.respec_tokens - 1⟩ ∧
        (respec (runBatches s batches).2).2.allocations = [] ∧
        (∀ r ∈ (respec (runBatches s batches).2).2.stats,
          r.allocated_bonus = 0) ∧
        (respec (runBatches s batches).2).2.character =
          some ⟨ch1.stat_points + ((runBatches s batches).1 : ℤ),
            ch.respec_tokens - 1⟩) ∧
    (∀ (s : TreeState) (ch : CharacterRec),
      s.character = some ch → ch.respec_tokens ≤ 0 →
      respec s = (⟨false, 0, 0, 0⟩, s)) := by
  constructor
  · intro s ch batches hch halloc hnodup htok
    obtain ⟨ch1, h1, h2, h3, h4, h5⟩ := runBatches_budget batches s ch hch hnodup
    have h0 : refundSum s = 0 := by
      unfold refundSum
      rw [halloc]
      rfl
    rw [h0, Nat.zero_add] at h4
    have h4' : (((runBatches s batches).2.allocations).map
        (refundOf (runBatches s batches).2.nodes)).sum =
        (runBatches s batches).1 := h4
    have hnotok : ¬ ch1.respec_tokens ≤ 0 := by
      rw [h2]
      omega
    refine ⟨ch1, h1, h2, ?_, ?_, ?_, ?_⟩
    · simp only [respec, h1, hnotok, if_false]
      rw [h4', h2]
    · simp only [respec, h1, hnotok, if_false]
    · simp only [respec, h1, hnotok, if_false]
      intro r hr
      rw [List.mem_map] at hr
      obtain ⟨r0, _, hr0⟩ := hr
      rw [← hr0]
    · simp only [respec, h1, hnotok, if_false]
      rw [h4', h2]
  · intro s ch hch htok
    simp [respec, hch, htok]

/-- A concrete scenario for `C1_respec_left_inverse`: origin `A` (1 point)
and adjacent `B` (2 points), a character with 5 points and 2 tokens,
allocating both in one batch and then respeccing. -/
def respecDemoState : TreeState :=
  ⟨[⟨1, "A", "origin", some 1, [], true⟩,
    ⟨2, "B", "minor", some 2, [], true⟩],
   [⟨1, 2, true⟩], some ⟨5, 2⟩, [⟨"STR", 10, 0⟩], []⟩

/-- Witness for `C1_respec_left_inverse` on `respecDemoState` with the
single batch `["A", "B"]`. -/
theorem C1_respec_left_inverse_witness :
    ∃ ch1, (runBatches respecDemoState [["A", "B"]]).2.character = some ch1 ∧
      ch1.respec_tokens = (2 : ℤ) ∧
      (respec (runBatches respecDemoState [["A", "B"]]).2).1 =
        ⟨true, (runBatches respecDemoState [["A", "B"]]).2.allocations.length,
          (runBatches respecDemoState [["A", "B"]]).1, 2 - 1⟩ ∧
      (respec (runBatches respecDemoState [["A", "B"]]).2).2.allocations = [] ∧
      (∀ r ∈ (respec (runBatches respecDemoState [["A", "B"]]).2).2.stats,
        r.allocated_bonus = 0) ∧
      (respec (runBatches respecDemoState [["A", "B"]]).2).2.character =
        some ⟨ch1.stat_points +
            ((runBatches respecDemoState [["A", "B"]]).1 : ℤ), 2 - 1⟩ :=
  C1_respec_left_inverse.1 respecDemoState ⟨5, 2⟩ [["A", "B"]]
    rfl rfl (by decide) (by decide)
